import Mathlib

/-!
Verification development for the anti-ephemeral-state plugin
(per-note persistence of cursor / scroll / view state, with an optional
lock mode).  The definitions below are a shallow embedding of the
TypeScript source: JSON values are modelled by the inductive type `Js`,
JavaScript objects by association lists with unique keys, the vault
adapter by a finite map from paths to raw stored content, and each
source function by a pure Lean function with the same name and the same
control flow.  JavaScript `undefined` is modelled by `Option.none`
(an object key holding `undefined` is modelled as the key being absent,
which is observationally equivalent for every operation these functions
perform: `typeof` checks, truthiness, `JSON.stringify`, and member
reads).
-/

namespace AES

variable {α : Type}

/-- Model of a JSON-representable JavaScript value.  Numbers are
modelled by rationals (JavaScript numbers are used here only for
equality tests, truthiness and storage round-trips, for which `Rat` is
an adequate carrier). -/
inductive Js where
  | null : Js
  | bool : Bool → Js
  | num : Rat → Js
  | str : String → Js
  | arr : List Js → Js
  | obj : List (String × Js) → Js

/-- Truthiness of a JavaScript value: `null`, `false`, `0` and the
empty string are falsy; arrays and objects are always truthy. -/
def jsTruthy : Js → Bool
  | .null => false
  | .bool b => b
  | .num q => !decide (q = 0)
  | .str s => !decide (s = "")
  | .arr _ => true
  | .obj _ => true

/-- Member read on an association-list object.  Returns `none` for a
missing key and for member access on a non-object (which yields
`undefined` for the value shapes reachable in this code). -/
def objGet : List (String × α) → String → Option α
  | [], _ => none
  | p :: rest, key => if p.1 = key then some p.2 else objGet rest key

/-- Member read on an arbitrary value (`undefined`, i.e. `none`, when
the value is not an object or lacks the key). -/
def jsGet : Js → String → Option Js
  | .obj fields, key => objGet fields key
  | _, _ => none

/-- Property assignment `o[key] = v` on an object with unique keys:
replace the value in place when the key is present, append otherwise. -/
def objSet : List (String × α) → String → α → List (String × α)
  | [], key, v => [(key, v)]
  | p :: rest, key, v => if p.1 = key then (key, v) :: rest else p :: objSet rest key v

/-- Property deletion by key (used to model assigning `undefined` to a
key, which is observationally equivalent to the key being absent for
every operation in this code). -/
def objDel (o : List (String × α)) (key : String) : List (String × α) :=
  o.filter (fun p => !decide (p.1 = key))

/-- Assignment of a possibly-`undefined` value. -/
def objSetOpt (o : List (String × α)) (key : String) : Option α → List (String × α)
  | some v => objSet o key v
  | none => objDel o key

/-- Spread `{...a, ...b}` on objects: the keys of `b` override. -/
def objSpread (a b : List (String × α)) : List (String × α) :=
  b.foldl (fun acc p => objSet acc p.1 p.2) a

/-- Decimal digit character. -/
def decimalDigitChar (d : Nat) : Char :=
  Char.ofNat (48 + d)

/-- Decimal digits of a natural number, most significant first.  The
first argument is recursion fuel, as in `toBase36Aux`. -/
def toDecimalAux : Nat → Nat → List Char
  | 0, _ => []
  | _, 0 => [decimalDigitChar 0]
  | fuel + 1, n =>
    if n < 10 then [decimalDigitChar n]
    else toDecimalAux fuel (n / 10) ++ [decimalDigitChar (n % 10)]

/-- Decimal printing of an array or string index: the JavaScript own
enumerable property key of the element. -/
def toDecimal (n : Nat) : String :=
  String.mk (toDecimalAux (n + 1) n)

/-- Character class 0-9, the alphabet of the index keys. -/
def isDecimalDigitChar (c : Char) : Bool :=
  48 ≤ c.toNat && c.toNat ≤ 57

/-- Index-keyed own enumerable fields of a list of element values. -/
def indexFields (xs : List Js) : List (String × Js) :=
  ((List.range xs.length).zip xs).map (fun p => (toDecimal p.1, p.2))

/-- Own enumerable fields of a value, as used by spread syntax:
objects contribute their fields; arrays and strings spread to their
index-keyed elements (string elements per Unicode scalar value, which
matches the UTF-16 element indexing of JavaScript on basic-plane
text); null, booleans and numbers contribute none. -/
def spreadFields : Js → List (String × Js)
  | .obj fields => fields
  | .arr xs => indexFields xs
  | .str s => indexFields (s.data.map (fun c => .str (String.mk [c])))
  | _ => []

/-- Escape a string for JSON output (quote, backslash and control
characters, as JSON.stringify does for the character set used here). -/
def jsonEscape (s : String) : String :=
  s.data.foldl
    (fun acc c =>
      if c = '\x22' then acc ++ "\x5c\x22"
      else if c = '\x5c' then acc ++ "\x5c\x5c"
      else acc.push c)
    ""

mutual

/-- Model of JSON.stringify on JSON-representable values (no
`undefined` occurs in the values this code serializes; see the note on
the `undefined` encoding above).  Number formatting goes through the
Rat printer, which is injective, as JavaScript number printing is. -/
def stringify : Js → String
  | .null => "null"
  | .bool b => if b then "true" else "false"
  | .num q => toString q
  | .str s => "\x22" ++ jsonEscape s ++ "\x22"
  | .arr xs => "[" ++ stringifyList xs ++ "]"
  | .obj fields => "\x7b" ++ stringifyFields fields ++ "\x7d"

def stringifyList : List Js → String
  | [] => ""
  | [x] => stringify x
  | x :: y :: rest => stringify x ++ "," ++ stringifyList (y :: rest)

def stringifyFields : List (String × Js) → String
  | [] => ""
  | [p] => "\x22" ++ jsonEscape p.1 ++ "\x22:" ++ stringify p.2
  | p :: q :: rest =>
      "\x22" ++ jsonEscape p.1 ++ "\x22:" ++ stringify p.2 ++ "," ++ stringifyFields (q :: rest)

end

/-! Typed state snapshots.  The change-detection functions
(`TemporaryStatesSame`, `performStateCheck`) operate on values of the
TypeScript interface `TemporaryState`, produced by `getTemporaryState`,
which are well-typed objects whose keys are present exactly when the
corresponding optional field was set.  They are modelled by a structure
with `Option` fields; the `protected` field is named `prot` because
`protected` is a Lean keyword, and the cursor `end` field is named
`end_` for the same reason. -/

/-- Zero-based line/column coordinates of one end of a selection. -/
structure CursorPos where
  col : Int
  line : Int

/-- Selection anchor and head, fields `start` and `end` in the source. -/
structure CursorRange where
  start : CursorPos
  end_ : CursorPos

/-- Model of the TypeScript interface `TemporaryState`. -/
structure TemporaryState where
  cursor : Option CursorRange := none
  scroll : Option Rat := none
  viewState : Option Js := none
  prot : Option Js := none
  timestamp : Option Js := none

/-- Number of keys of the underlying object, `Object.keys(state).length`
for a state whose keys are present exactly when the fields are set. -/
def stateKeys (s : TemporaryState) : Nat :=
  (if s.cursor.isSome then 1 else 0) + (if s.scroll.isSome then 1 else 0) +
    (if s.viewState.isSome then 1 else 0) + (if s.prot.isSome then 1 else 0) +
    (if s.timestamp.isSome then 1 else 0)

/-- Truthiness of the `scroll` field: absent and exactly `0` are both
falsy (`!!state.scroll` in the source). -/
def truthyScroll (s : TemporaryState) : Bool :=
  match s.scroll with
  | none => false
  | some q => !decide (q = 0)

/-- Truthiness of the `viewState` field. -/
def truthyViewState (s : TemporaryState) : Bool :=
  match s.viewState with
  | none => false
  | some v => jsTruthy v

/-- Empty-state test used by `performStateCheck` and
`TemporaryStatesSame`: no keys at all, or none of cursor, scroll,
viewState is truthy. -/
def isEmptyState (s : TemporaryState) : Bool :=
  stateKeys s == 0 || (!s.cursor.isSome && !truthyScroll s && !truthyViewState s)

/-- Field-by-field cursor comparison, executed by the source only when
both cursors are present; compares the four coordinates exactly. -/
def cursorDiffers : Option CursorRange → Option CursorRange → Bool
  | some lc, some rc =>
      !decide (lc.start.col = rc.start.col) || !decide (lc.start.line = rc.start.line) ||
        !decide (lc.end_.col = rc.end_.col) || !decide (lc.end_.line = rc.end_.line)
  | _, _ => false

/-- JSON.stringify of a possibly-absent viewState
(`JSON.stringify(undefined)` is `undefined`, modelled as `none`). -/
def stringifyViewState : Option Js → Option String
  | none => none
  | some v => some (stringify v)

/-- Structural equality of two snapshots, `TemporaryStatesSame` in the
source: null handling, the empty-state rule, cursor presence and
coordinates, scroll presence by truthiness and exact value, and
viewState deep equality via JSON serialization. -/
def TemporaryStatesSame (left right : Option TemporaryState) : Bool :=
  match left, right with
  | none, none => true
  | none, some _ => false
  | some _, none => false
  | some l, some r =>
    if isEmptyState l && isEmptyState r then true
    else if isEmptyState l != isEmptyState r then false
    else if l.cursor.isSome != r.cursor.isSome then false
    else if l.cursor.isSome && cursorDiffers l.cursor r.cursor then false
    else if truthyScroll l != truthyScroll r then false
    else if truthyScroll l && !decide (l.scroll = r.scroll) then false
    else if !decide (stringifyViewState l.viewState = stringifyViewState r.viewState) then false
    else true

/-- Ambient plugin state read by `performStateCheck`: the active file
path, the last loaded file name, the loading flag and the in-memory
last snapshot. -/
structure CheckCtx where
  activeFile : Option String
  lastLoadedFileName : Option String
  loadingFile : Bool
  lastTemporaryState : Option TemporaryState

/-- Model of `performStateCheck`, with the freshly captured state as an
explicit argument.  The result is the state handed to
`saveTemporaryState` (or `none` when no save happens) together with the
updated in-memory last snapshot. -/
def performStateCheck (ctx : CheckCtx) (state : TemporaryState) :
    Option TemporaryState × Option TemporaryState :=
  let fileNameFalsy :=
    match ctx.activeFile with
    | none => true
    | some f => decide (f = "")
  let lastLoadedFalsy :=
    match ctx.lastLoadedFileName with
    | none => true
    | some l => decide (l = "")
  let namesDiffer := !decide (ctx.activeFile = ctx.lastLoadedFileName)
  if fileNameFalsy || lastLoadedFalsy || namesDiffer || ctx.loadingFile then
    (none, ctx.lastTemporaryState)
  else if isEmptyState state then
    (none, ctx.lastTemporaryState)
  else
    let last :=
      match ctx.lastTemporaryState with
      | none => some state
      | some l => some l
    if !TemporaryStatesSame (some state) last then (some state, some state)
    else (none, last)

/-! Key derivation.  `getFileHash` iterates over the UTF-16 code units
of the path (JavaScript `charCodeAt` / `length` semantics), updating two
rolling hashes; `(h * prime + code) & 0x7fffffff` on an exact float
equals reduction modulo 2^31 because the intermediate value is
non-negative and below 2^53. -/

/-- UTF-16 code units of one Unicode scalar value. -/
def charUtf16 (c : Char) : List Nat :=
  if c.toNat < 65536 then [c.toNat]
  else [55296 + (c.toNat - 65536) / 1024, 56320 + (c.toNat - 65536) % 1024]

/-- UTF-16 code-unit sequence of a string, the sequence indexed by
`charCodeAt` and measured by `length` in JavaScript. -/
def utf16Codes (s : String) : List Nat :=
  (s.data.map charUtf16).flatten

/-- One rolling-hash update, `(hash * prime + char) & 0x7fffffff`. -/
def hashStep (prime h code : Nat) : Nat :=
  (h * prime + code) % 2147483648

/-- Digit character for base-36 printing, 0-9 then a-z. -/
def base36Digit (d : Nat) : Char :=
  if d < 10 then Char.ofNat (48 + d) else Char.ofNat (87 + d)

/-- Digits of a natural number in base 36, most significant first.
The first argument is recursion fuel; any fuel larger than the number
itself is enough, since dividing by 36 strictly decreases a positive
number. -/
def toBase36Aux : Nat → Nat → List Char
  | 0, _ => []
  | _, 0 => [base36Digit 0]
  | fuel + 1, n =>
    if n < 36 then [base36Digit n]
    else toBase36Aux fuel (n / 36) ++ [base36Digit (n % 36)]

/-- Base-36 printing of a natural number, JavaScript
`Number.prototype.toString(36)` for the non-negative integers produced
here. -/
def toBase36 (n : Nat) : String :=
  String.mk (toBase36Aux (n + 1) n)

/-- Model of `getFileHash`: two rolling hashes over the UTF-16 code
units with prime multipliers 31 and 37, each kept in [0, 2^31), printed
in base 36 and concatenated with the base-36 length. -/
def getFileHash (filePath : String) : String :=
  let codes := utf16Codes filePath
  let hash1 := codes.foldl (hashStep 31) 0
  let hash2 := codes.foldl (hashStep 37) 0
  toBase36 hash1 ++ toBase36 hash2 ++ toBase36 codes.length

/-- Model of `getDbFilePath`: the per-note database file location. -/
def getDbFilePath (dbDir : String) (filePath : String) : String :=
  dbDir ++ "/" ++ getFileHash filePath ++ ".json"

/-! Storage model.  One entry per adapter path; the content of an entry
records how `adapter.read` followed by `JSON.parse` behaves on it. -/

/-- Content stored at an adapter path: a read that rejects, text that
JSON.parse throws on, or text that parses to the given value. -/
inductive Raw where
  | err : Raw
  | invalid : Raw
  | val : Js → Raw

/-- State persistence root: a finite map from adapter paths to stored
content, with unique keys. -/
abbrev Storage := List (String × Raw)

/-- Model of the source `isObject` helper: `typeof v === "object" && v
!== null`, which is also true of arrays. -/
def isObject : Js → Bool
  | .obj _ => true
  | .arr _ => true
  | _ => false

/-- Model of `isParsedStateMinimal`. -/
def isParsedStateMinimal (v : Js) : Bool :=
  if !isObject v then false
  else
    match jsGet v "viewState" with
    | none => true
    | some vs =>
      if !isObject vs then false
      else
        match jsGet vs "file" with
        | none => true
        | some (.str _) => true
        | some _ => false

/-- Model of the `validateViewStateFile` closure in `readFileState`:
a record is invalid exactly when its shape is recognized and
`viewState.file` is a string different from the expected path. -/
def validateViewStateFile (parsedData : Js) (expectedFilePath : String) : Bool :=
  if !isParsedStateMinimal parsedData then true
  else
    match (jsGet parsedData "viewState").bind (fun vs => jsGet vs "file") with
    | some (.str f) => decide (f = expectedFilePath)
    | _ => true

/-- The test `typeof v === "boolean"` on a member read. -/
def isBoolean : Option Js → Bool
  | some (.bool _) => true
  | _ => false

/-- The test `ts === null || typeof ts === "number"`, the accepted
shapes of a stored timestamp (its negation is the defaulting test
`ts === undefined || (typeof ts !== "number" && ts !== null)`). -/
def isNumOrNull : Option Js → Bool
  | some (.num _) => true
  | some .null => true
  | _ => false

/-- The first defaulting block: `if (typeof rec.protected !==
"boolean") rec.protected = false`. -/
def protectedDefault (fields : List (String × Js)) : List (String × Js) :=
  if !isBoolean (objGet fields "protected") then
    objSet fields "protected" (.bool false)
  else fields

/-- The second defaulting block: `if (ts === undefined || (typeof ts
!== "number" && ts !== null)) rec.timestamp = null`. -/
def timestampDefault (fields : List (String × Js)) : List (String × Js) :=
  if !isNumOrNull (objGet fields "timestamp") then
    objSet fields "timestamp" .null
  else fields

/-- Model of the `ensureLockDefaults` closure: on an object, force
`protected` to a boolean (default `false`) and `timestamp` to a number
or null (default `null`), reporting whether anything changed.  On an
array — which `isObject` also accepts — the two fields are absent, so
the changed flag is true, but the property writes are dropped by
JSON.stringify and are not observable through the member reads this
code performs, so the value is returned unchanged.  On any other value
`isObject` fails and nothing changes. -/
def ensureLockDefaults (parsed : Js) : Js × Bool :=
  match parsed with
  | .obj fields =>
    (.obj (timestampDefault (protectedDefault fields)),
      !isBoolean (objGet fields "protected") ||
        !isNumOrNull (objGet (protectedDefault fields) "timestamp"))
  | .arr xs => (.arr xs, true)
  | v => (v, false)

/-- Model of the correction `if (parsedData.viewState)
parsedData.viewState.file = filePath` in `readFileState`.  A property
write on a truthy non-object viewState is dropped. -/
def setViewStateFile (parsed : Js) (filePath : String) : Js :=
  match parsed with
  | .obj fields =>
    match objGet fields "viewState" with
    | some (.obj vsFields) =>
        .obj (objSet fields "viewState" (.obj (objSet vsFields "file" (.str filePath))))
    | _ => parsed
  | _ => parsed

/-- Model of `readFileState`.  Inputs: the configured database root,
whether a `span.is-flashing` element is present in the workspace at
read time, the storage contents, and the note path.  Output: the value
returned to the caller (`none` both for a missing or unreadable entry
and for the flashing suppression) together with the updated storage
(the synchronous write-backs the function performs). -/
def readFileState (dbDir : String) (flashing : Bool) (storage : Storage)
    (filePath : String) : Option Js × Storage :=
  let dbFilePath := getDbFilePath dbDir filePath
  match objGet storage dbFilePath with
  | none => (none, storage)
  | some .err => (none, storage)
  | some .invalid => (none, storage)
  | some (.val parsed) =>
    let pc := ensureLockDefaults parsed
    if !validateViewStateFile pc.1 filePath then
      let corrected := setViewStateFile pc.1 filePath
      (some corrected, objSet storage dbFilePath (.val corrected))
    else if flashing then (none, storage)
    else if pc.2 then (some pc.1, objSet storage dbFilePath (.val pc.1))
    else (some pc.1, storage)

/-- Default-filling applied by `writeFileState` to the spread-copied
record: `protected` is forced to a boolean (default false) and
`timestamp` to a number or null (default null), the same two blocks as
on the read side. -/
def lockDefaults (fields : List (String × Js)) : List (String × Js) :=
  timestampDefault (protectedDefault fields)

/-- Model of `writeFileState`: spread-copy the record, default-fill the
two lock fields, and overwrite the derived location with the serialized
result.  Creation of the database directory is not tracked by the
storage map. -/
def writeFileState (dbDir : String) (storage : Storage) (filePath : String)
    (state : Js) : Storage :=
  let dbFilePath := getDbFilePath dbDir filePath
  objSet storage dbFilePath (.val (.obj (lockDefaults (spreadFields state))))

/-- Ambient plugin state read by `saveTemporaryState`. -/
structure SaveCtx where
  activeFile : Option String
  lastLoadedFileName : Option String
  lastTemporaryState : Option Js

/-- Model of `saveTemporaryState`.  The result is the pair handed to
the debounced writer (`none` when the guard rejects the save) together
with the storage as updated by the embedded read.  The merge branch is
guarded by the truthiness of the read result, as `if (existing)` is in
the source: a falsy stored value falls through to the in-memory
fallback.  The `lastTemporaryState` field of the context models the
plugin field of TypeScript type TemporaryState-or-null, to which the
program only ever assigns object values or null, so its truthiness
coincides with the presence encoded by the `Option`. -/
def saveTemporaryState (dbDir : String) (flashing : Bool) (ctx : SaveCtx)
    (storage : Storage) (state : Js) : Option (String × Js) × Storage :=
  match ctx.activeFile with
  | none => (none, storage)
  | some fileName =>
    if decide (fileName = "") || !decide (ctx.lastLoadedFileName = some fileName) then
      (none, storage)
    else
      let rs := readFileState dbDir flashing storage fileName
      let fallback : Js :=
        match ctx.lastTemporaryState with
        | some last =>
          .obj (objSetOpt (objSetOpt (spreadFields state) "protected"
            (jsGet last "protected")) "timestamp" (jsGet last "timestamp"))
        | none => state
      let merged : Js :=
        match rs.1 with
        | some existing =>
          if jsTruthy existing then
            let m0 := objSpread (spreadFields existing) (spreadFields state)
            let m1 :=
              match jsGet existing "protected" with
              | some (.bool b) => objSet m0 "protected" (.bool b)
              | _ => m0
            let m2 :=
              match jsGet existing "timestamp" with
              | some .null => objSet m1 "timestamp" .null
              | some (.num t) => objSet m1 "timestamp" (.num t)
              | _ => m1
            .obj m2
          else fallback
        | none => fallback
      (some (fileName, merged), rs.2)

/-- Model of `renameFile`: read the record at the old path and, when
the result is truthy (`if (oldState)` in the source, so a stored falsy
value migrates nothing), write it under the new path, then remove the
old derived location if present. -/
def renameFile (dbDir : String) (flashing : Bool) (storage : Storage)
    (newPath oldPath : String) : Storage :=
  let rs := readFileState dbDir flashing storage oldPath
  match rs.1 with
  | some oldState =>
    if jsTruthy oldState then
      let st2 := writeFileState dbDir rs.2 newPath oldState
      let oldDbFilePath := getDbFilePath dbDir oldPath
      if (objGet st2 oldDbFilePath).isSome then objDel st2 oldDbFilePath else st2
    else rs.2
  | none => rs.2

/-- Counters reported by `validateDatabase`. -/
structure ValidationReport where
  total : Nat
  fixedViewStatePath : Nat
  removedMissingNote : Nat
  removedInvalidEntry : Nat
  errors : Nat

/-- Owning note path recovered from a parsed record, `notePath` in
`validateDatabase`: defined exactly when the minimal shape check passes
and `viewState.file` is a string. -/
def recoveredNotePath (parsed : Js) : Option String :=
  if isParsedStateMinimal parsed then
    match (jsGet parsed "viewState").bind (fun vs => jsGet vs "file") with
    | some (.str s) => some s
    | _ => none
  else none

/-- Model of the repair performed when `validateDatabase` finds a
record whose `viewState.file` differs from the recovered note path:
replace a falsy viewState by an empty object, then set `file`. -/
def fixViewStateFile (parsed : Js) (notePath : String) : Js :=
  match parsed with
  | .obj fields =>
    let fields1 : List (String × Js) :=
      match objGet fields "viewState" with
      | none => objSet fields "viewState" (.obj [])
      | some vs => if jsTruthy vs then fields else objSet fields "viewState" (.obj [])
    match objGet fields1 "viewState" with
    | some (.obj vsFields) =>
        .obj (objSet fields1 "viewState" (.obj (objSet vsFields "file" (.str notePath))))
    | _ => .obj fields1
  | v => v

/-- The change test `parsed.viewState?.file !== notePath` guarded by
the minimal shape check, as computed inside `validateDatabase`. -/
def viewStateFileChanged (parsed : Js) (notePath : String) : Bool :=
  if isParsedStateMinimal parsed then
    match (jsGet parsed "viewState").bind (fun vs => jsGet vs "file") with
    | some (.str s) => decide (s ≠ notePath)
    | _ => true
  else false

/-- Per-entry body of the `validateDatabase` loop: given the stored
content of one listed file and the set of existing note paths, produce
the action taken on the entry.  A missing or rejecting read is the
per-entry caught exception. -/
def validateLoop (notes : List String) :
    List String → Storage → ValidationReport → ValidationReport × Storage
  | [], storage, rep => (rep, storage)
  | f :: rest, storage, rep =>
    let rep := { rep with total := rep.total + 1 }
    match objGet storage f with
    | none =>
        validateLoop notes rest storage { rep with errors := rep.errors + 1 }
    | some .err =>
        validateLoop notes rest storage { rep with errors := rep.errors + 1 }
    | some .invalid =>
        validateLoop notes rest (objDel storage f)
          { rep with removedInvalidEntry := rep.removedInvalidEntry + 1 }
    | some (.val parsed) =>
      match recoveredNotePath parsed with
      | none =>
          validateLoop notes rest (objDel storage f)
            { rep with removedInvalidEntry := rep.removedInvalidEntry + 1 }
      | some notePath =>
        if decide (notePath = "") then
          validateLoop notes rest (objDel storage f)
            { rep with removedInvalidEntry := rep.removedInvalidEntry + 1 }
        else
          let changed := viewStateFileChanged parsed notePath
          if !decide (notePath ∈ notes) then
            validateLoop notes rest (objDel storage f)
              { rep with removedMissingNote := rep.removedMissingNote + 1 }
          else if changed then
            validateLoop notes rest
              (objSet storage f (.val (fixViewStateFile parsed notePath)))
              { rep with fixedViewStatePath := rep.fixedViewStatePath + 1 }
          else
            validateLoop notes rest storage rep

/-- The listing filter `f.toLowerCase().endsWith(".json")`, written
over character lists (ASCII lowercasing; the storage file names this
code generates are ASCII). -/
def hasJsonSuffix (f : String) : Bool :=
  List.isSuffixOf ".json".data (f.data.map Char.toLower)

/-- Model of `validateDatabase`: list the storage root, keep the
entries whose lowercased name ends in .json, and run the per-entry
loop.  The existence check on the database directory itself is not
tracked by the storage map. -/
def validateDatabase (notes : List String) (storage : Storage) :
    ValidationReport × Storage :=
  let files := (storage.map Prod.fst).filter hasJsonSuffix
  validateLoop notes files storage ⟨0, 0, 0, 0, 0⟩

/-- Model of `ChecksumIntegrity.getFileTimestamp`: the stat result is
either absent (a falsy `s`) or an object whose `mtime` member may or
may not be a number; anything but a numeric mtime throws. -/
def getFileTimestamp (statResult : Option Js) : Except String Rat :=
  match statResult with
  | none => .error "stat returned no object"
  | some s =>
    match jsGet s "mtime" with
    | some (.num t) => .ok t
    | _ => .error "stat returned no mtime"

/-- The expression `(await readFileState(path)) || \x7b\x7d`: a falsy
read result is replaced by an empty object. -/
def currentRecord : Option Js → Js
  | some c => if jsTruthy c then c else .obj []
  | none => .obj []

/-- Truthiness of `v.protected` (`undefined` when the key is absent,
hence falsy). -/
def protectedTruthy (v : Js) : Bool :=
  match jsGet v "protected" with
  | some w => jsTruthy w
  | none => false

/-- The timestamp captured while locking: the file modification time
when the integrity helper succeeds, null when it throws (the error is
logged and the toggle proceeds) and null when unlocking. -/
def toggleTimestamp (nextProtected : Bool) (statResult : Option Js) : Js :=
  if nextProtected then
    match getFileTimestamp statResult with
    | .ok t => .num t
    | .error _ => .null
  else .null

/-- Model of `LockManager.toggleLockState`: read the current record
(empty defaults when the read returns a falsy value), flip `protected`,
capture the modification time when locking (proceeding with null when
the capture throws), and persist the merged record.  The status-bar
update, the in-memory snapshot update and the read-only enforcement do
not touch the storage map and are not modelled. -/
def toggleLockState (dbDir : String) (flashing : Bool) (statResult : Option Js)
    (storage : Storage) (filePath : String) : Storage :=
  let rs := readFileState dbDir flashing storage filePath
  let current := currentRecord rs.1
  let nextProtected := !protectedTruthy current
  let newState : Js :=
    .obj (objSet (objSet (spreadFields current) "protected" (.bool nextProtected))
      "timestamp" (toggleTimestamp nextProtected statResult))
  writeFileState dbDir rs.2 filePath newState

/-! Claim theorems. -/

/-- Character class 0-9, a-z, the alphabet of base-36 printing. -/
def isBase36Char (c : Char) : Bool :=
  (48 ≤ c.toNat && c.toNat ≤ 57) || (97 ≤ c.toNat && c.toNat ≤ 122)

/-- Lock-field agnostic view of two snapshots: equal cursor, scroll and
viewState. -/
def nonLockEq (s t : TemporaryState) : Prop :=
  s.cursor = t.cursor ∧ s.scroll = t.scroll ∧ s.viewState = t.viewState

/-- Concrete store for the C2 witness: one record under the key
derived from correct.md whose viewState.file says wrong/path.md. -/
def correctionStore : Storage :=
  [(getDbFilePath "db" "correct.md",
    .val (.obj [("scroll", .num 7),
      ("viewState", .obj [("file", .str "wrong/path.md")])]))]

/-- Concrete store for the C10 witness. -/
def renameStore : Storage :=
  [(getDbFilePath "db" "old.md",
    .val (.obj [("scroll", .num 2), ("protected", .bool false),
      ("timestamp", .null)]))]

/-- Concrete store for the C10 witness falsy case: the stored JSON is
the number 0, which parses fine but is falsy, so `renameFile` migrates
nothing. -/
def falsyStore : Storage :=
  [(getDbFilePath "db" "f.md", .val (.num 0))]

/-- Concrete store for the C1 counterexample and witness: a record with
`protected:true, timestamp:1000` under the key derived from a.md. -/
def lockStore : Storage :=
  [(getDbFilePath "db" "a.md",
    .val (.obj [("protected", .bool true), ("timestamp", .num 1000)]))]

/-- Ambient save context for the C1 counterexample and witness. -/
def saveCtx : SaveCtx :=
  { activeFile := some "a.md", lastLoadedFileName := some "a.md",
    lastTemporaryState := some (.obj []) }

/-- Outcome classes of one `validateDatabase` entry. -/
inductive EntryClass where
  | errored : EntryClass
  | removedInvalid : EntryClass
  | removedMissing : EntryClass
  | fixed : EntryClass
  | kept : EntryClass
deriving DecidableEq

/-- Classification of one listed entry by its stored content, following
the branch order of the loop body: a rejecting (or vanished) read is a
caught per-entry error; unparsable JSON and records without a truthy
string `viewState.file` are invalid; a recovered owning path that does
not exist is missing; a differing `viewState.file` would be fixed; the
rest are kept. -/
def entryClass (notes : List String) : Option Raw → EntryClass
  | none => .errored
  | some .err => .errored
  | some .invalid => .removedInvalid
  | some (.val parsed) =>
    match recoveredNotePath parsed with
    | none => .removedInvalid
    | some np =>
      if np = "" then .removedInvalid
      else if ¬(np ∈ notes) then .removedMissing
      else if viewStateFileChanged parsed np then .fixed
      else .kept

/-- Content left at the entry key by one loop iteration. -/
def entryResult (notes : List String) : Option Raw → Option Raw
  | none => none
  | some .err => some .err
  | some .invalid => none
  | some (.val parsed) =>
    match recoveredNotePath parsed with
    | none => none
    | some np =>
      if np = "" then none
      else if ¬(np ∈ notes) then none
      else if viewStateFileChanged parsed np then
        some (.val (fixViewStateFile parsed np))
      else some (.val parsed)

/-- Storage after one loop iteration on the entry at key f. -/
def stepStore (notes : List String) (st : Storage) (f : String) : Storage :=
  match objGet st f with
  | none => st
  | some .err => st
  | some .invalid => objDel st f
  | some (.val parsed) =>
    match recoveredNotePath parsed with
    | none => objDel st f
    | some np =>
      if np = "" then objDel st f
      else if ¬(np ∈ notes) then objDel st f
      else if viewStateFileChanged parsed np then
        objSet st f (.val (fixViewStateFile parsed np))
      else st

/-- Counter update for one classified entry. -/
def entryCount (c : EntryClass) (rep : ValidationReport) : ValidationReport :=
  match c with
  | .errored => { rep with errors := rep.errors + 1 }
  | .removedInvalid =>
      { rep with removedInvalidEntry := rep.removedInvalidEntry + 1 }
  | .removedMissing =>
      { rep with removedMissingNote := rep.removedMissingNote + 1 }
  | .fixed => { rep with fixedViewStatePath := rep.fixedViewStatePath + 1 }
  | .kept => rep

/-- The four stored records of the end-to-end validation scenario. -/
def scenarioStore : Storage :=
  [("db/e1.json", .val (.obj [("viewState", .obj [("file", .str "a.md")]),
     ("scroll", .num 3)])),
   ("db/e2.json", .val (.obj [("viewState", .obj [("file", .str "gone.md")])])),
   ("db/e3.json", .invalid),
   ("db/e4.json", .val (.obj [("cursor", .obj [])]))]

theorem objGet_objSet_self (o : List (String × α)) (k : String) (v : α) :
    objGet (objSet o k v) k = some v := by
  induction o with
  | nil => simp [objSet, objGet]
  | cons p rest ih =>
    by_cases hk : p.1 = k
    · simp [objSet, objGet, hk]
    · simp [objSet, objGet, hk, ih]

theorem objGet_objSet_ne (o : List (String × α)) (k k' : String) (v : α)
    (h : k ≠ k') : objGet (objSet o k v) k' = objGet o k' := by
  induction o with
  | nil => simp [objSet, objGet, h]
  | cons p rest ih =>
    by_cases hk : p.1 = k
    · simp [objSet, objGet, hk, h]
    · simp [objSet, objGet, hk, ih]

theorem objGet_objDel_self (o : List (String × α)) (k : String) :
    objGet (objDel o k) k = none := by
  induction o with
  | nil => rfl
  | cons p rest ih =>
    simp only [objDel, List.filter_cons] at *
    by_cases hk : p.1 = k
    · rw [if_neg (by simp [hk])]
      exact ih
    · rw [if_pos (by simp [hk])]
      simp [objGet, hk, ih]

theorem objGet_objDel_ne (o : List (String × α)) (k k' : String)
    (h : k ≠ k') : objGet (objDel o k) k' = objGet o k' := by
  induction o with
  | nil => rfl
  | cons p rest ih =>
    simp only [objDel, List.filter_cons] at *
    by_cases hk : p.1 = k
    · have hne : ¬p.1 = k' := by rw [hk]; exact h
      rw [if_neg (by simp [hk])]
      rw [ih, objGet, if_neg hne]
    · rw [if_pos (by simp [hk])]
      by_cases hk' : p.1 = k'
      · simp [objGet, hk']
      · simp [objGet, hk', ih]

theorem isBase36Char_base36Digit :
    ∀ d : Nat, d < 36 → isBase36Char (base36Digit d) = true := by decide

theorem toBase36Aux_digits (fuel : Nat) :
    ∀ n : Nat, (toBase36Aux fuel n).all isBase36Char = true := by
  induction fuel with
  | zero => intro n; cases n <;> rfl
  | succ fuel ih =>
    intro n
    match n with
    | 0 => simp [toBase36Aux, isBase36Char_base36Digit 0 (by omega)]
    | Nat.succ m =>
      have heq : toBase36Aux (fuel + 1) (m + 1) =
          if m + 1 < 36 then [base36Digit (m + 1)]
          else toBase36Aux fuel ((m + 1) / 36) ++ [base36Digit ((m + 1) % 36)] := rfl
      rw [heq]
      by_cases h : m + 1 < 36
      · simp [h, isBase36Char_base36Digit _ h]
      · simp [h, List.all_append, ih,
          isBase36Char_base36Digit ((m + 1) % 36) (Nat.mod_lt _ (by omega))]

theorem hashStep_lt (prime h code : Nat) : hashStep prime h code < 2 ^ 31 := by
  unfold hashStep
  exact Nat.mod_lt _ (by norm_num)

theorem foldl_hashStep_lt (prime : Nat) :
    ∀ (codes : List Nat) (h : Nat), h < 2 ^ 31 →
      codes.foldl (hashStep prime) h < 2 ^ 31
  | [], _, hh => hh
  | c :: cs, h, _ =>
      foldl_hashStep_lt prime cs (hashStep prime h c) (hashStep_lt prime h c)

/-- C8: `getFileHash` is a total function of the path (hence
deterministic, defined for the empty string, unicode and arbitrarily
long input), equal to the concatenation of the base-36 printings of two
rolling hashes over the UTF-16 character codes with prime multipliers
31 and 37, each kept in [0, 2^31) by the 0x7fffffff mask, followed by
the base-36 printing of the length; its output uses only the characters
0-9 and a-z. -/
theorem getFileHash_spec (filePath : String) :
    getFileHash filePath =
        toBase36 ((utf16Codes filePath).foldl (hashStep 31) 0) ++
          toBase36 ((utf16Codes filePath).foldl (hashStep 37) 0) ++
          toBase36 (utf16Codes filePath).length ∧
      (utf16Codes filePath).foldl (hashStep 31) 0 < 2 ^ 31 ∧
      (utf16Codes filePath).foldl (hashStep 37) 0 < 2 ^ 31 ∧
      (getFileHash filePath).data.all isBase36Char = true := by
  refine ⟨rfl, foldl_hashStep_lt 31 _ 0 (by norm_num),
    foldl_hashStep_lt 37 _ 0 (by norm_num), ?_⟩
  show ((toBase36 _ ++ toBase36 _ ++ toBase36 _).data.all isBase36Char) = true
  rw [String.data_append, String.data_append]
  simp only [List.all_append, toBase36, toBase36Aux_digits, Bool.and_self]

/-- The two disjuncts of `isEmptyState` collapse: zero keys implies all
three tracked fields are falsy, so emptiness is the falsity of cursor,
scroll and viewState. -/
theorem isEmptyState_eq_conj (s : TemporaryState) :
    isEmptyState s =
      (!s.cursor.isSome && !truthyScroll s && !truthyViewState s) := by
  rcases s with ⟨c, sc, vs, pr, ts⟩
  cases c <;> cases sc <;> cases vs <;> cases pr <;> cases ts <;>
    simp [isEmptyState, stateKeys, truthyScroll, truthyViewState]

theorem truthyScroll_nonLock (s t : TemporaryState) (h : nonLockEq s t) :
    truthyScroll s = truthyScroll t := by
  unfold truthyScroll
  rw [h.2.1]

theorem isEmptyState_nonLock (s t : TemporaryState) (h : nonLockEq s t) :
    isEmptyState s = isEmptyState t := by
  rw [isEmptyState_eq_conj, isEmptyState_eq_conj, h.1, truthyScroll_nonLock s t h]
  unfold truthyViewState
  rw [h.2.2]

theorem cursorDiffers_self (c : Option CursorRange) : cursorDiffers c c = false := by
  cases c <;> simp [cursorDiffers]

/-- Congruence of the snapshot comparison under changes confined to the
lock fields. -/
theorem same_nonLock_congr (a b a' b' : TemporaryState)
    (h1 : nonLockEq a a') (h2 : nonLockEq b b') :
    TemporaryStatesSame (some a') (some b') = TemporaryStatesSame (some a) (some b) := by
  obtain ⟨hc, hs, hv⟩ := h1
  obtain ⟨hc2, hs2, hv2⟩ := h2
  simp only [TemporaryStatesSame]
  rw [isEmptyState_nonLock a' a ⟨hc.symm, hs.symm, hv.symm⟩,
    isEmptyState_nonLock b' b ⟨hc2.symm, hs2.symm, hv2.symm⟩,
    truthyScroll_nonLock a' a ⟨hc.symm, hs.symm, hv.symm⟩,
    truthyScroll_nonLock b' b ⟨hc2.symm, hs2.symm, hv2.symm⟩,
    ← hc, ← hs, ← hv, ← hc2, ← hs2, ← hv2]

theorem TemporaryStatesSame_refl (a : TemporaryState) :
    TemporaryStatesSame (some a) (some a) = true := by
  simp only [TemporaryStatesSame]
  by_cases he : isEmptyState a
  · simp [he]
  · simp [he, cursorDiffers_self]

/-- C9: the comparison `TemporaryStatesSame` depends only on the
cursor, scroll and viewState fields of its arguments — rewriting the
`protected` or `timestamp` field of either side leaves the result
unchanged — and two states agreeing on those three fields are judged
the same, so a lock-field change alone never differs through the
change-detection path. -/
theorem TemporaryStatesSame_lock_independent :
    (∀ a b a' b' : TemporaryState, nonLockEq a a' → nonLockEq b b' →
      TemporaryStatesSame (some a') (some b') =
        TemporaryStatesSame (some a) (some b)) ∧
    (∀ a b : TemporaryState, nonLockEq a b →
      TemporaryStatesSame (some a) (some b) = true) := by
  refine ⟨fun a b a' b' h1 h2 => same_nonLock_congr a b a' b' h1 h2, fun a b h => ?_⟩
  calc TemporaryStatesSame (some a) (some b)
      = TemporaryStatesSame (some a) (some a) :=
        same_nonLock_congr a a a b ⟨rfl, rfl, rfl⟩ h
    _ = true := TemporaryStatesSame_refl a

/-- Closed instance of C9: flipping `protected` and dropping
`timestamp` on one side does not change the comparison. -/
theorem TemporaryStatesSame_lock_independent_witness :
    TemporaryStatesSame
        (some { scroll := some 3, prot := some (.bool true), timestamp := some (.num 7) })
        (some { scroll := some 3, prot := some (.bool false) }) = true :=
  TemporaryStatesSame_lock_independent.2
    { scroll := some 3, prot := some (.bool true), timestamp := some (.num 7) }
    { scroll := some 3, prot := some (.bool false) } ⟨rfl, rfl, rfl⟩

/-- C5: for non-empty states the comparison decides scroll equality by
truthiness — a presence mismatch (under `!!`, so exactly-zero counts as
absent) forces inequality, two truthy scrolls must be exactly equal for
the states to compare equal, and a scroll of exactly 0 is
indistinguishable from an absent scroll when all other fields agree. -/
theorem TemporaryStatesSame_scroll_spec (a b : TemporaryState)
    (ha : isEmptyState a = false) (hb : isEmptyState b = false) :
    (truthyScroll a ≠ truthyScroll b →
        TemporaryStatesSame (some a) (some b) = false) ∧
      (truthyScroll a = true → truthyScroll b = true →
        TemporaryStatesSame (some a) (some b) = true → a.scroll = b.scroll) ∧
      (∀ c : TemporaryState,
        TemporaryStatesSame (some { c with scroll := some 0 })
          (some { c with scroll := none }) = true) := by
  refine ⟨?_, ?_, ?_⟩
  · intro h
    simp only [TemporaryStatesSame, ha, hb]
    split_ifs <;> simp_all
  · intro hsa hsb hsame
    simp only [TemporaryStatesSame] at hsame
    split_ifs at hsame with h1 h2 h3 h4 h5 h6 h7 <;>
      first
        | (simp at hsame; done)
        | (rw [isEmptyState_eq_conj, hsa] at h1; simp at h1; done)
        | (rw [hsa] at h6; simpa using h6)
  · intro c
    have hts : truthyScroll { c with scroll := some 0 } = false := by
      simp [truthyScroll]
    have hts2 : truthyScroll { c with scroll := none } = false := by
      simp [truthyScroll]
    have he : isEmptyState { c with scroll := some 0 } =
        isEmptyState { c with scroll := none } := by
      rw [isEmptyState_eq_conj, isEmptyState_eq_conj, hts, hts2]
      rfl
    simp only [TemporaryStatesSame, he]
    by_cases hemp : isEmptyState { c with scroll := none }
    · simp [hemp]
    · simp [hemp, hts, hts2, cursorDiffers_self]

/-- Closed instance of C5: a scroll-presence mismatch is unequal, equal
truthy scrolls compare equal-by-value, and scroll 0 equals absent. -/
theorem TemporaryStatesSame_scroll_spec_witness :
    TemporaryStatesSame (some { scroll := some 3 })
        (some { cursor := some ⟨⟨1, 2⟩, ⟨3, 4⟩⟩ }) = false ∧
      TemporaryStatesSame
        (some { cursor := some ⟨⟨1, 2⟩, ⟨3, 4⟩⟩, scroll := some 0 })
        (some { cursor := some ⟨⟨1, 2⟩, ⟨3, 4⟩⟩ }) = true :=
  ⟨(TemporaryStatesSame_scroll_spec { scroll := some 3 }
      { cursor := some ⟨⟨1, 2⟩, ⟨3, 4⟩⟩ } (by decide) (by decide)).1 (by decide),
    (TemporaryStatesSame_scroll_spec { scroll := some 3 }
      { cursor := some ⟨⟨1, 2⟩, ⟨3, 4⟩⟩ } (by decide) (by decide)).2.2
      { cursor := some ⟨⟨1, 2⟩, ⟨3, 4⟩⟩ }⟩

/-- C4: a capture that is empty — no keys, or none of cursor, scroll,
viewState set — never reaches `saveTemporaryState`, whatever the guard
state; and a capture judged equal to the in-memory last snapshot by
`TemporaryStatesSame` schedules no save either. -/
theorem performStateCheck_suppression :
    (∀ (ctx : CheckCtx) (state : TemporaryState), isEmptyState state = true →
      (performStateCheck ctx state).1 = none) ∧
    (∀ (ctx : CheckCtx) (state : TemporaryState),
      TemporaryStatesSame (some state) ctx.lastTemporaryState = true →
      (performStateCheck ctx state).1 = none) := by
  constructor
  · intro ctx state h
    simp only [performStateCheck]
    split_ifs <;> simp_all
  · intro ctx state h
    match hlast : ctx.lastTemporaryState with
    | none => simp [TemporaryStatesSame, hlast] at h
    | some l =>
      simp only [performStateCheck, hlast]
      rw [hlast] at h
      split_ifs with h1 h2 h3 <;> simp_all

/-- Closed instance of C4: the empty capture and an unchanged capture
are both suppressed. -/
theorem performStateCheck_suppression_witness :
    (performStateCheck
        { activeFile := some "a.md", lastLoadedFileName := some "a.md",
          loadingFile := false, lastTemporaryState := none } {}).1 = none ∧
      (performStateCheck
        { activeFile := some "a.md", lastLoadedFileName := some "a.md",
          loadingFile := false, lastTemporaryState := some { scroll := some 3 } }
        { scroll := some 3 }).1 = none :=
  ⟨performStateCheck_suppression.1 _ {} rfl,
    performStateCheck_suppression.2 _ { scroll := some 3 } rfl⟩

theorem isBoolean_eq_true (o : Option Js) :
    isBoolean o = true ↔ ∃ b : Bool, o = some (.bool b) := by
  rcases o with _ | v
  · simp [isBoolean]
  · cases v <;> simp [isBoolean]

theorem isNumOrNull_eq_true (o : Option Js) :
    isNumOrNull o = true ↔ (∃ t : Rat, o = some (.num t)) ∨ o = some .null := by
  rcases o with _ | v
  · simp [isNumOrNull]
  · cases v <;> simp [isNumOrNull]

theorem protectedDefault_get (fields : List (String × Js)) :
    objGet (protectedDefault fields) "protected" =
      (if isBoolean (objGet fields "protected") then objGet fields "protected"
       else some (.bool false)) := by
  unfold protectedDefault
  by_cases hb : isBoolean (objGet fields "protected")
  · rw [if_neg (by simp [hb]), if_pos hb]
  · rw [if_pos (by simp [hb]), if_neg hb, objGet_objSet_self]

theorem protectedDefault_get_ne (fields : List (String × Js)) (k : String)
    (hk : k ≠ "protected") :
    objGet (protectedDefault fields) k = objGet fields k := by
  unfold protectedDefault
  by_cases hb : isBoolean (objGet fields "protected")
  · rw [if_neg (by simp [hb])]
  · rw [if_pos (by simp [hb]), objGet_objSet_ne _ _ _ _ (Ne.symm hk)]

theorem timestampDefault_get (fields : List (String × Js)) :
    objGet (timestampDefault fields) "timestamp" =
      (if isNumOrNull (objGet fields "timestamp") then objGet fields "timestamp"
       else some .null) := by
  unfold timestampDefault
  by_cases ht : isNumOrNull (objGet fields "timestamp")
  · rw [if_neg (by simp [ht]), if_pos ht]
  · rw [if_pos (by simp [ht]), if_neg ht, objGet_objSet_self]

theorem timestampDefault_get_ne (fields : List (String × Js)) (k : String)
    (hk : k ≠ "timestamp") :
    objGet (timestampDefault fields) k = objGet fields k := by
  unfold timestampDefault
  by_cases ht : isNumOrNull (objGet fields "timestamp")
  · rw [if_neg (by simp [ht])]
  · rw [if_pos (by simp [ht]), objGet_objSet_ne _ _ _ _ (Ne.symm hk)]

theorem lockDefaults_protected (fields : List (String × Js)) :
    objGet (lockDefaults fields) "protected" =
      (if isBoolean (objGet fields "protected") then objGet fields "protected"
       else some (.bool false)) := by
  unfold lockDefaults
  rw [timestampDefault_get_ne _ _ (by decide), protectedDefault_get]

theorem lockDefaults_timestamp (fields : List (String × Js)) :
    objGet (lockDefaults fields) "timestamp" =
      (if isNumOrNull (objGet fields "timestamp") then objGet fields "timestamp"
       else some .null) := by
  unfold lockDefaults
  rw [timestampDefault_get,
    protectedDefault_get_ne _ _ (by decide)]

theorem lockDefaults_protected_bool (fields : List (String × Js)) :
    ∃ b : Bool, objGet (lockDefaults fields) "protected" = some (.bool b) := by
  rw [lockDefaults_protected fields]
  by_cases hb : isBoolean (objGet fields "protected")
  · obtain ⟨b, hbv⟩ := (isBoolean_eq_true _).mp hb
    exact ⟨b, by rw [if_pos hb, hbv]⟩
  · exact ⟨false, by rw [if_neg hb]⟩

theorem lockDefaults_timestamp_numOrNull (fields : List (String × Js)) :
    (∃ t : Rat, objGet (lockDefaults fields) "timestamp" = some (.num t)) ∨
      objGet (lockDefaults fields) "timestamp" = some .null := by
  rw [lockDefaults_timestamp fields]
  by_cases ht : isNumOrNull (objGet fields "timestamp")
  · rcases (isNumOrNull_eq_true _).mp ht with ⟨t, htv⟩ | htv
    · exact Or.inl ⟨t, by rw [if_pos ht, htv]⟩
    · exact Or.inr (by rw [if_pos ht, htv])
  · exact Or.inr (by rw [if_neg ht])

theorem lockDefaults_other (fields : List (String × Js)) (k : String)
    (hk1 : k ≠ "protected") (hk2 : k ≠ "timestamp") :
    objGet (lockDefaults fields) k = objGet fields k := by
  unfold lockDefaults
  rw [timestampDefault_get_ne _ _ hk2, protectedDefault_get_ne _ _ hk1]

/-- C6: every record persisted through `writeFileState` satisfies the
storage invariant — `protected` is a boolean, set to false when the
input field is absent or not a boolean and kept otherwise, and
`timestamp` is a number or null, set to null when the input field is
absent or of any other type and kept otherwise — while all other fields
are serialized unchanged, the whole record being a full overwrite of
the derived location. -/
theorem writeFileState_spec (dbDir filePath : String) (storage : Storage)
    (fields : List (String × Js)) :
    writeFileState dbDir storage filePath (.obj fields) =
        objSet storage (getDbFilePath dbDir filePath)
          (.val (.obj (lockDefaults fields))) ∧
      (∃ b : Bool, objGet (lockDefaults fields) "protected" = some (.bool b)) ∧
      objGet (lockDefaults fields) "protected" =
        (if isBoolean (objGet fields "protected") then objGet fields "protected"
         else some (.bool false)) ∧
      ((∃ t : Rat, objGet (lockDefaults fields) "timestamp" = some (.num t)) ∨
        objGet (lockDefaults fields) "timestamp" = some .null) ∧
      objGet (lockDefaults fields) "timestamp" =
        (if isNumOrNull (objGet fields "timestamp") then objGet fields "timestamp"
         else some .null) ∧
      (∀ k : String, k ≠ "protected" → k ≠ "timestamp" →
        objGet (lockDefaults fields) k = objGet fields k) := by
  refine ⟨rfl, ?_, lockDefaults_protected fields, ?_, lockDefaults_timestamp fields,
    fun k hk1 hk2 => lockDefaults_other fields k hk1 hk2⟩
  · rw [lockDefaults_protected fields]
    by_cases hb : isBoolean (objGet fields "protected")
    · obtain ⟨b, hbv⟩ := (isBoolean_eq_true _).mp hb
      exact ⟨b, by rw [if_pos hb, hbv]⟩
    · exact ⟨false, by rw [if_neg hb]⟩
  · rw [lockDefaults_timestamp fields]
    by_cases ht : isNumOrNull (objGet fields "timestamp")
    · rcases (isNumOrNull_eq_true _).mp ht with ⟨t, htv⟩ | htv
      · exact Or.inl ⟨t, by rw [if_pos ht, htv]⟩
      · exact Or.inr (by rw [if_pos ht, htv])
    · exact Or.inr (by rw [if_neg ht])

/-- Closed instance of C6: a record with a string `protected`, no
timestamp and one payload field is written with `protected:false`,
`timestamp:null` and the payload intact. -/
theorem writeFileState_spec_witness :
    objGet (lockDefaults [("protected", .str "yes"), ("scroll", .num 4)])
        "protected" = some (.bool false) ∧
      objGet (lockDefaults [("protected", .str "yes"), ("scroll", .num 4)])
        "timestamp" = some .null ∧
      objGet (lockDefaults [("protected", .str "yes"), ("scroll", .num 4)])
        "scroll" = objGet [(("protected" : String), Js.str "yes"),
          ("scroll", .num 4)] "scroll" := by
  refine ⟨?_, ?_, ?_⟩
  · have h := (writeFileState_spec "db" "a.md" []
      [("protected", .str "yes"), ("scroll", .num 4)]).2.2.1
    rw [h]; rfl
  · have h := (writeFileState_spec "db" "a.md" []
      [("protected", .str "yes"), ("scroll", .num 4)]).2.2.2.2.1
    rw [h]; rfl
  · exact (writeFileState_spec "db" "a.md" []
      [("protected", .str "yes"), ("scroll", .num 4)]).2.2.2.2.2 "scroll"
      (by decide) (by decide)

/-- C2: a stored record that parses to an object whose
`viewState.file` is a string different from the owning path is
corrected on read — `viewState.file` is rewritten to the path, the
corrected record is written back to the derived location before
returning, and the corrected record is returned — regardless of the
transient visual-effect (is-flashing) signal, and with all fields other
than `viewState` and the two defaulted lock fields untouched. -/
theorem readFileState_corrects_viewState_file (dbDir filePath s : String)
    (storage : Storage) (fields vsFields : List (String × Js)) (flashing : Bool)
    (hstore : objGet storage (getDbFilePath dbDir filePath) =
      some (.val (.obj fields)))
    (hvs : objGet fields "viewState" = some (.obj vsFields))
    (hfile : objGet vsFields "file" = some (.str s))
    (hne : s ≠ filePath) :
    ∃ corrected : Js,
      readFileState dbDir flashing storage filePath =
        (some corrected,
          objSet storage (getDbFilePath dbDir filePath) (.val corrected)) ∧
      (jsGet corrected "viewState").bind (fun vs => jsGet vs "file") =
        some (.str filePath) ∧
      (∀ k : String, k ≠ "viewState" → k ≠ "protected" → k ≠ "timestamp" →
        jsGet corrected k = objGet fields k) := by
  have hvs' : objGet (lockDefaults fields) "viewState" = some (.obj vsFields) := by
    rw [lockDefaults_other fields "viewState" (by decide) (by decide), hvs]
  have hmin : isParsedStateMinimal (.obj (lockDefaults fields)) = true := by
    simp [isParsedStateMinimal, isObject, jsGet, hvs', hfile]
  have hval : validateViewStateFile (.obj (lockDefaults fields)) filePath = false := by
    simp [validateViewStateFile, hmin, jsGet, hvs', hfile, hne]
  have hset : setViewStateFile (.obj (lockDefaults fields)) filePath =
      .obj (objSet (lockDefaults fields) "viewState"
        (.obj (objSet vsFields "file" (.str filePath)))) := by
    simp [setViewStateFile, hvs']
  refine ⟨.obj (objSet (lockDefaults fields) "viewState"
    (.obj (objSet vsFields "file" (.str filePath)))), ?_, ?_, ?_⟩
  · simp only [readFileState, hstore, ensureLockDefaults,
      show timestampDefault (protectedDefault fields) = lockDefaults fields from rfl,
      hval, Bool.not_false, if_true, hset]
  · simp [jsGet, objGet_objSet_self]
  · intro k hk1 hk2 hk3
    simp only [jsGet, objGet_objSet_ne _ _ _ _ (Ne.symm hk1)]
    exact lockDefaults_other fields k hk2 hk3

/-- Closed instance of C2 at the store above, with the flashing signal
active. -/
theorem readFileState_corrects_viewState_file_witness :
    ∃ corrected : Js,
      readFileState "db" true correctionStore "correct.md" =
        (some corrected,
          objSet correctionStore (getDbFilePath "db" "correct.md")
            (.val corrected)) ∧
      (jsGet corrected "viewState").bind (fun vs => jsGet vs "file") =
        some (.str "correct.md") ∧
      (∀ k : String, k ≠ "viewState" → k ≠ "protected" → k ≠ "timestamp" →
        jsGet corrected k =
          objGet [(("scroll" : String), Js.num 7),
            ("viewState", .obj [("file", .str "wrong/path.md")])] k) :=
  readFileState_corrects_viewState_file "db" "correct.md" "wrong/path.md"
    correctionStore
    [("scroll", .num 7), ("viewState", .obj [("file", .str "wrong/path.md")])]
    [("file", .str "wrong/path.md")] true rfl rfl rfl (by decide)

/-- C7: the toggle flips the protected flag of the current record —
the read result, with an absent record treated as empty defaults, so
an unprotected or missing record becomes protected — and persists a
boolean flag; when transitioning to protected it captures the
modification time through `getFileTimestamp`, and a failed capture
(stat without a numeric mtime) does not abort the toggle: the persisted
record then carries `protected = true` and `timestamp = null`; when
transitioning to unprotected the persisted timestamp is null. -/
theorem toggleLockState_spec (dbDir filePath : String) (flashing : Bool)
    (statResult : Option Js) (storage : Storage) :
    ∃ w : List (String × Js),
      toggleLockState dbDir flashing statResult storage filePath =
        objSet (readFileState dbDir flashing storage filePath).2
          (getDbFilePath dbDir filePath) (.val (.obj w)) ∧
      objGet w "protected" =
        some (.bool (!protectedTruthy
          (currentRecord (readFileState dbDir flashing storage filePath).1))) ∧
      (∀ e, getFileTimestamp statResult = .error e →
        objGet w "timestamp" = some .null) ∧
      ((!protectedTruthy
          (currentRecord (readFileState dbDir flashing storage filePath).1)) = true →
        ∀ t, getFileTimestamp statResult = .ok t →
          objGet w "timestamp" = some (.num t)) ∧
      ((!protectedTruthy
          (currentRecord (readFileState dbDir flashing storage filePath).1)) = false →
        objGet w "timestamp" = some .null) := by
  have hpt : ("protected" : String) ≠ "timestamp" := by decide
  set rs := readFileState dbDir flashing storage filePath with hrs
  set current := currentRecord rs.1 with hcur
  set next := !protectedTruthy current with hnext
  set base := objSet (objSet (spreadFields current) "protected" (.bool next))
    "timestamp" (toggleTimestamp next statResult) with hbase
  have hts : objGet base "timestamp" = some (toggleTimestamp next statResult) :=
    objGet_objSet_self _ _ _
  have hpr : objGet base "protected" = some (.bool next) := by
    rw [hbase, objGet_objSet_ne _ _ _ _ (Ne.symm hpt), objGet_objSet_self]
  have htsok : isNumOrNull (objGet base "timestamp") = true := by
    rw [hts]
    unfold toggleTimestamp
    by_cases hn : next = true
    · cases hgt : getFileTimestamp statResult <;> simp [hn, hgt, isNumOrNull]
    · simp only [Bool.not_eq_true] at hn
      simp [hn, isNumOrNull]
  have hldt : objGet (lockDefaults base) "timestamp" =
      some (toggleTimestamp next statResult) := by
    rw [lockDefaults_timestamp base, if_pos htsok, hts]
  refine ⟨lockDefaults base, rfl, ?_, ?_, ?_, ?_⟩
  · rw [lockDefaults_protected base, hpr]
    simp [isBoolean]
  · intro e he
    rw [hldt]
    by_cases hn : next = true
    · simp [toggleTimestamp, hn, he]
    · simp only [Bool.not_eq_true] at hn
      simp [toggleTimestamp, hn]
  · intro hn t ht
    rw [hldt]
    simp [toggleTimestamp, hn, ht]
  · intro hn
    rw [hldt]
    simp [toggleTimestamp, hn]

/-- Closed instance of C7: toggling a note with no stored record while
stat yields no numeric mtime still persists `protected = true` with
`timestamp = null`. -/
theorem toggleLockState_spec_witness :
    ∃ w : List (String × Js),
      toggleLockState "db" false (some (.obj [])) [] "a.md" =
        objSet (readFileState "db" false [] "a.md").2
          (getDbFilePath "db" "a.md") (.val (.obj w)) ∧
      objGet w "protected" = some (.bool true) ∧
      objGet w "timestamp" = some .null := by
  obtain ⟨w, h1, h2, h3, _, _⟩ :=
    toggleLockState_spec "db" "a.md" false (some (.obj [])) []
  exact ⟨w, h1, h2, h3 "stat returned no mtime" rfl⟩

theorem objGet_objSetOpt_self (o : List (String × α)) (k : String)
    (v : Option α) : objGet (objSetOpt o k v) k = v := by
  cases v with
  | none => exact objGet_objDel_self o k
  | some w => exact objGet_objSet_self o k w

theorem objGet_objSetOpt_ne (o : List (String × α)) (k k' : String)
    (v : Option α) (h : k ≠ k') : objGet (objSetOpt o k v) k' = objGet o k' := by
  cases v with
  | none => exact objGet_objDel_ne o k k' h
  | some w => exact objGet_objSet_ne o k k' w h

theorem decimalDigitChar_isDigit (d : Nat) (hd : d < 10) :
    isDecimalDigitChar (decimalDigitChar d) = true := by
  interval_cases d <;> decide

theorem toDecimalAux_digits (fuel n : Nat) :
    (toDecimalAux fuel n).all isDecimalDigitChar = true := by
  induction fuel generalizing n with
  | zero => cases n <;> rfl
  | succ fuel ih =>
    cases n with
    | zero => rfl
    | succ m =>
      rw [show toDecimalAux (fuel + 1) (m + 1) =
        (if m + 1 < 10 then [decimalDigitChar (m + 1)]
         else toDecimalAux fuel ((m + 1) / 10) ++
           [decimalDigitChar ((m + 1) % 10)]) from rfl]
      by_cases h : m + 1 < 10
      · rw [if_pos h]
        simp [decimalDigitChar_isDigit _ h]
      · rw [if_neg h]
        simp only [List.all_append, ih, Bool.true_and]
        simp [decimalDigitChar_isDigit _ (Nat.mod_lt _ (by omega))]

theorem toDecimal_digits (n : Nat) :
    (toDecimal n).data.all isDecimalDigitChar = true :=
  toDecimalAux_digits (n + 1) n

theorem indexFields_keys (xs : List Js) (p : String × Js)
    (hp : p ∈ indexFields xs) : p.1.data.all isDecimalDigitChar = true := by
  simp only [indexFields, List.mem_map] at hp
  obtain ⟨q, _, hq⟩ := hp
  rw [← hq]
  exact toDecimal_digits q.1

theorem objGet_digit_keys_none (l : List (String × Js)) (k : String)
    (hk : k.data.all isDecimalDigitChar = false)
    (hl : ∀ p ∈ l, p.1.data.all isDecimalDigitChar = true) :
    objGet l k = none := by
  induction l with
  | nil => rfl
  | cons p rest ih =>
    have hp := hl p (List.mem_cons_self p rest)
    have hne : ¬ (p.1 = k) := by
      intro he
      rw [he, hk] at hp
      exact Bool.false_ne_true hp
    simp only [objGet, if_neg hne]
    exact ih (fun q hq => hl q (List.mem_cons_of_mem p hq))

/-- On a key that is not a string of decimal digits — in particular on
every named record field — a member read through spread agrees with a
member read on the original value: index keys contributed by spreading
an array or a string can never collide with it, and non-object
non-indexed values contribute nothing, matching the undefined read. -/
theorem objGet_spreadFields_named (r : Js) (k : String)
    (hk : k.data.all isDecimalDigitChar = false) :
    objGet (spreadFields r) k = jsGet r k := by
  cases r with
  | null => rfl
  | bool b => rfl
  | num q => rfl
  | str s =>
    exact objGet_digit_keys_none _ _ hk
      (indexFields_keys (s.data.map (fun c => .str (String.mk [c]))))
  | arr xs => exact objGet_digit_keys_none _ _ hk (indexFields_keys xs)
  | obj fields => rfl

theorem ensureLockDefaults_unchanged (parsed : Js)
    (h : (ensureLockDefaults parsed).2 = false) :
    (ensureLockDefaults parsed).1 = parsed := by
  cases parsed with
  | obj fields =>
    by_cases hb : isBoolean (objGet fields "protected")
    · have hpd : protectedDefault fields = fields := if_neg (by simp [hb])
      by_cases ht : isNumOrNull (objGet (protectedDefault fields) "timestamp")
      · have htd : timestampDefault (protectedDefault fields) =
            protectedDefault fields := if_neg (by simp [ht])
        rw [hpd] at htd
        simp [ensureLockDefaults, hpd, htd]
      · exfalso
        revert h
        simp [ensureLockDefaults, ht]
    · exfalso
      revert h
      simp [ensureLockDefaults, hb]
  | arr xs => simp [ensureLockDefaults] at h
  | null => rfl
  | bool b => rfl
  | num q => rfl
  | str s => rfl

theorem vsFile_shape (parsed : Js) (f : String)
    (h : (jsGet parsed "viewState").bind (fun vs => jsGet vs "file") =
      some (.str f)) :
    ∃ fields vsF, parsed = .obj fields ∧
      objGet fields "viewState" = some (.obj vsF) ∧
      objGet vsF "file" = some (.str f) := by
  cases parsed with
  | obj fields =>
    cases hv : objGet fields "viewState" with
    | none => simp [jsGet, hv] at h
    | some vs =>
      cases vs with
      | obj vsF =>
        refine ⟨fields, vsF, rfl, hv, ?_⟩
        simpa [jsGet, hv] using h
      | null => simp [jsGet, hv] at h
      | bool b => simp [jsGet, hv] at h
      | num q => simp [jsGet, hv] at h
      | str s => simp [jsGet, hv] at h
      | arr xs => simp [jsGet, hv] at h
  | null => simp [jsGet] at h
  | bool b => simp [jsGet] at h
  | num q => simp [jsGet] at h
  | str s => simp [jsGet] at h
  | arr xs => simp [jsGet] at h

theorem validateViewStateFile_false (parsed : Js) (p : String)
    (h : validateViewStateFile parsed p = false) :
    ∃ fields vsF s, parsed = .obj fields ∧
      objGet fields "viewState" = some (.obj vsF) ∧
      objGet vsF "file" = some (.str s) ∧ s ≠ p := by
  rw [validateViewStateFile] at h
  by_cases hmin : isParsedStateMinimal parsed
  · rw [if_neg (by simp [hmin])] at h
    cases hf : (jsGet parsed "viewState").bind (fun vs => jsGet vs "file") with
    | none => rw [hf] at h; simp at h
    | some v =>
      rw [hf] at h
      cases v with
      | str s =>
        obtain ⟨fields, vsF, heq, hv, hfile⟩ := vsFile_shape parsed s hf
        exact ⟨fields, vsF, s, heq, hv, hfile, by simpa using h⟩
      | null => simp at h
      | bool b => simp at h
      | num q => simp at h
      | arr xs => simp at h
      | obj fs => simp at h
  · rw [if_pos (by simp [hmin])] at h
    simp at h

theorem validateViewStateFile_true_str (parsed : Js) (p f : String)
    (hval : validateViewStateFile parsed p = true)
    (hf : (jsGet parsed "viewState").bind (fun vs => jsGet vs "file") =
      some (.str f)) :
    f = p := by
  obtain ⟨fields, vsF, heq, hv, hfile⟩ := vsFile_shape parsed f hf
  subst heq
  have hmin : isParsedStateMinimal (.obj fields) = true := by
    simp [isParsedStateMinimal, isObject, jsGet, hv, hfile]
  rw [validateViewStateFile, if_neg (by simp [hmin])] at hval
  rw [hf] at hval
  simpa using hval

theorem setViewStateFile_of_viewState (fields vsF : List (String × Js))
    (p : String) (hv : objGet fields "viewState" = some (.obj vsF)) :
    setViewStateFile (.obj fields) p =
      .obj (objSet fields "viewState"
        (.obj (objSet vsF "file" (.str p)))) := by
  simp [setViewStateFile, hv]

/-- Every record returned by `readFileState` leaves the storage with
exactly that record at the derived location, and its `viewState.file`,
when a string, equals the owning path (either it already did, or the
correction branch rewrote it). -/
theorem readFileState_result (dbDir filePath : String) (flashing : Bool)
    (storage : Storage) (r : Js)
    (h : (readFileState dbDir flashing storage filePath).1 = some r) :
    objGet (readFileState dbDir flashing storage filePath).2
        (getDbFilePath dbDir filePath) = some (.val r) ∧
      (∀ f, (jsGet r "viewState").bind (fun vs => jsGet vs "file") =
        some (.str f) → f = filePath) := by
  cases hst : objGet storage (getDbFilePath dbDir filePath) with
  | none =>
    simp only [readFileState, hst] at h
    simp at h
  | some raw =>
    cases raw with
    | err =>
      simp only [readFileState, hst] at h
      simp at h
    | invalid =>
      simp only [readFileState, hst] at h
      simp at h
    | val parsed =>
      by_cases hval :
        validateViewStateFile (ensureLockDefaults parsed).1 filePath
      · by_cases hfl : flashing
        · have hres : readFileState dbDir flashing storage filePath =
              (none, storage) := by
            simp only [readFileState, hst]
            rw [if_neg (by simp [hval]), if_pos hfl]
          rw [hres] at h
          simp at h
        · by_cases hch : (ensureLockDefaults parsed).2
          · have hres : readFileState dbDir flashing storage filePath =
                (some (ensureLockDefaults parsed).1,
                  objSet storage (getDbFilePath dbDir filePath)
                    (.val (ensureLockDefaults parsed).1)) := by
              simp only [readFileState, hst]
              rw [if_neg (by simp [hval]), if_neg hfl, if_pos hch]
            rw [hres] at h ⊢
            obtain rfl : (ensureLockDefaults parsed).1 = r := by
              simpa using h
            exact ⟨objGet_objSet_self _ _ _,
              fun f hf => validateViewStateFile_true_str _ _ _ hval hf⟩
          · have hres : readFileState dbDir flashing storage filePath =
                (some (ensureLockDefaults parsed).1, storage) := by
              simp only [readFileState, hst]
              rw [if_neg (by simp [hval]), if_neg hfl, if_neg hch]
            rw [hres] at h ⊢
            obtain rfl : (ensureLockDefaults parsed).1 = r := by
              simpa using h
            have hunch := ensureLockDefaults_unchanged parsed
              (by simpa using hch)
            refine ⟨?_, fun f hf => validateViewStateFile_true_str _ _ _ hval hf⟩
            rw [hunch]
            exact hst
      · obtain ⟨fields, vsF, s, heq, hv, hfile, hne⟩ :=
          validateViewStateFile_false _ _ (by simpa using hval)
        have hset := setViewStateFile_of_viewState fields vsF filePath hv
        have hres : readFileState dbDir flashing storage filePath =
            (some (setViewStateFile (ensureLockDefaults parsed).1 filePath),
              objSet storage (getDbFilePath dbDir filePath)
                (.val (setViewStateFile (ensureLockDefaults parsed).1 filePath))) := by
          simp only [readFileState, hst]
          rw [if_pos (by simp [hval])]
        rw [hres] at h ⊢
        obtain rfl : setViewStateFile (ensureLockDefaults parsed).1 filePath = r := by
          simpa using h
        refine ⟨objGet_objSet_self _ _ _, fun f hf => ?_⟩
        rw [heq, hset] at hf
        simp only [jsGet, objGet_objSet_self] at hf
        have hf2 : objGet (objSet vsF "file" (.str filePath)) "file" =
            some (.str f) := by
          simpa [jsGet] using hf
        rw [objGet_objSet_self] at hf2
        injection hf2 with hf3
        injection hf3 with hf4
        exact hf4.symm

/-- C10: when a record exists at the old derived location and
`readFileState(oldPath)` returns a truthy value, `renameFile` leaves
the storage equal to: write the record under the new derived key (lock
defaults filled by the write — `protected` a boolean, `timestamp` a
number or null — every named non-lock field such as cursor, scroll and
viewState unchanged, and `viewState.file`, when a string, still naming
the old path), then remove the old derived location, whose lookup in
the result is therefore `none`; when the lookup keys differ, the new
derived location holds exactly the migrated record.  When the read
returns a stored falsy value the storage after the read is returned
untouched, and when no record exists at the old path nothing changes
at all. -/
theorem renameFile_spec (dbDir oldPath newPath : String) (flashing : Bool)
    (storage : Storage) :
    (∀ r storage1,
      readFileState dbDir flashing storage oldPath = (some r, storage1) →
      jsTruthy r = true →
      renameFile dbDir flashing storage newPath oldPath =
        objDel (objSet storage1 (getDbFilePath dbDir newPath)
            (.val (.obj (lockDefaults (spreadFields r)))))
          (getDbFilePath dbDir oldPath) ∧
      objGet (renameFile dbDir flashing storage newPath oldPath)
          (getDbFilePath dbDir oldPath) = none ∧
      (getDbFilePath dbDir newPath ≠ getDbFilePath dbDir oldPath →
        objGet (renameFile dbDir flashing storage newPath oldPath)
            (getDbFilePath dbDir newPath) =
          some (.val (.obj (lockDefaults (spreadFields r))))) ∧
      (∀ k, k.data.all isDecimalDigitChar = false → k ≠ "protected" →
        k ≠ "timestamp" →
        objGet (lockDefaults (spreadFields r)) k = jsGet r k) ∧
      (∃ b : Bool, objGet (lockDefaults (spreadFields r)) "protected" =
        some (.bool b)) ∧
      ((∃ t : Rat, objGet (lockDefaults (spreadFields r)) "timestamp" =
        some (.num t)) ∨
        objGet (lockDefaults (spreadFields r)) "timestamp" = some .null) ∧
      (∀ f, (objGet (lockDefaults (spreadFields r)) "viewState").bind
          (fun vs => jsGet vs "file") = some (.str f) → f = oldPath)) ∧
    (∀ r storage1,
      readFileState dbDir flashing storage oldPath = (some r, storage1) →
      jsTruthy r = false →
      renameFile dbDir flashing storage newPath oldPath = storage1) ∧
    (objGet storage (getDbFilePath dbDir oldPath) = none →
      renameFile dbDir flashing storage newPath oldPath = storage) := by
  refine ⟨?_, ?_, ?_⟩
  · intro r storage1 hread htru
    have hr1 : (readFileState dbDir flashing storage oldPath).1 = some r := by
      rw [hread]
    obtain ⟨hkeep, hvsf⟩ :=
      readFileState_result dbDir oldPath flashing storage r hr1
    have hkeep1 : objGet storage1 (getDbFilePath dbDir oldPath) =
        some (.val r) := by
      rw [hread] at hkeep
      exact hkeep
    have hw : writeFileState dbDir storage1 newPath r =
        objSet storage1 (getDbFilePath dbDir newPath)
          (.val (.obj (lockDefaults (spreadFields r)))) := rfl
    have hsome : (objGet (writeFileState dbDir storage1 newPath r)
        (getDbFilePath dbDir oldPath)).isSome = true := by
      rw [hw]
      by_cases hkey : getDbFilePath dbDir newPath = getDbFilePath dbDir oldPath
      · rw [hkey, objGet_objSet_self]
        rfl
      · rw [objGet_objSet_ne _ _ _ _ hkey, hkeep1]
        rfl
    have hfin : renameFile dbDir flashing storage newPath oldPath =
        objDel (writeFileState dbDir storage1 newPath r)
          (getDbFilePath dbDir oldPath) := by
      simp only [renameFile, hread]
      rw [if_pos htru, if_pos hsome]
    have hother : ∀ k, k.data.all isDecimalDigitChar = false →
        k ≠ "protected" → k ≠ "timestamp" →
        objGet (lockDefaults (spreadFields r)) k = jsGet r k := by
      intro k hkd hk1 hk2
      rw [lockDefaults_other _ _ hk1 hk2, objGet_spreadFields_named _ _ hkd]
    refine ⟨?_, ?_, ?_, hother, lockDefaults_protected_bool _,
      lockDefaults_timestamp_numOrNull _, ?_⟩
    · rw [hfin, hw]
    · rw [hfin]
      exact objGet_objDel_self _ _
    · intro hne
      rw [hfin, objGet_objDel_ne _ _ _ (Ne.symm hne), hw,
        objGet_objSet_self]
    · intro f hf
      rw [hother "viewState" (by decide) (by decide) (by decide)] at hf
      exact hvsf f hf
  · intro r storage1 hread htru
    simp only [renameFile, hread]
    rw [if_neg (by simp [htru])]
  · intro hnone
    simp only [renameFile, readFileState, hnone]

/-- Closed instance of C10: the record moves out of the old derived
location, whose lookup becomes `none`, the resulting storage is exactly
write-then-delete, and a stored falsy record (the number 0) migrates
nothing. -/
theorem renameFile_spec_witness :
    renameFile "db" false renameStore "new.md" "old.md" =
      objDel (objSet renameStore (getDbFilePath "db" "new.md")
          (.val (.obj (lockDefaults (spreadFields
            (.obj [("scroll", .num 2), ("protected", .bool false),
              ("timestamp", .null)]))))))
        (getDbFilePath "db" "old.md") ∧
      objGet (renameFile "db" false renameStore "new.md" "old.md")
        (getDbFilePath "db" "old.md") = none ∧
      renameFile "db" false falsyStore "new.md" "f.md" = falsyStore :=
  ⟨((renameFile_spec "db" "old.md" "new.md" false renameStore).1 _
      renameStore rfl rfl).1,
    ((renameFile_spec "db" "old.md" "new.md" false renameStore).1 _
      renameStore rfl rfl).2.1,
    (renameFile_spec "db" "f.md" "new.md" false falsyStore).2.1 _
      falsyStore rfl rfl⟩

/-- A read of a stored object whose lock fields are already well-typed
returns a record carrying the same lock fields (the defaults change
nothing, and the correction branch only touches viewState). -/
theorem readFileState_lock_preserved (dbDir filePath : String)
    (storage : Storage) (fields : List (String × Js))
    (hstore : objGet storage (getDbFilePath dbDir filePath) =
      some (.val (.obj fields)))
    (hb : isBoolean (objGet fields "protected") = true)
    (ht : isNumOrNull (objGet fields "timestamp") = true) :
    ∃ r, (readFileState dbDir false storage filePath).1 = some r ∧
      jsTruthy r = true ∧
      jsGet r "protected" = objGet fields "protected" ∧
      jsGet r "timestamp" = objGet fields "timestamp" := by
  have hpd : protectedDefault fields = fields := if_neg (by simp [hb])
  have htd : timestampDefault fields = fields := if_neg (by simp [ht])
  have hpc1 : (ensureLockDefaults (.obj fields)).1 = .obj fields := by
    simp [ensureLockDefaults, hpd, htd]
  by_cases hval : validateViewStateFile (ensureLockDefaults (.obj fields)).1 filePath
  · by_cases hch : (ensureLockDefaults (.obj fields)).2
    · refine ⟨.obj fields, ?_, rfl, rfl, rfl⟩
      have hres : readFileState dbDir false storage filePath =
          (some (ensureLockDefaults (.obj fields)).1,
            objSet storage (getDbFilePath dbDir filePath)
              (.val (ensureLockDefaults (.obj fields)).1)) := by
        simp only [readFileState, hstore]
        rw [if_neg (by simp [hval]), if_neg (by simp), if_pos hch]
      rw [hres, hpc1]
    · refine ⟨.obj fields, ?_, rfl, rfl, rfl⟩
      have hres : readFileState dbDir false storage filePath =
          (some (ensureLockDefaults (.obj fields)).1, storage) := by
        simp only [readFileState, hstore]
        rw [if_neg (by simp [hval]), if_neg (by simp), if_neg hch]
      rw [hres, hpc1]
  · obtain ⟨fields2, vsF, s, heq, hv, hfile, hne⟩ :=
      validateViewStateFile_false _ _ (by simpa using hval)
    rw [hpc1] at heq
    injection heq with heq2
    subst heq2
    have hset := setViewStateFile_of_viewState fields vsF filePath hv
    refine ⟨.obj (objSet fields "viewState"
      (.obj (objSet vsF "file" (.str filePath)))), ?_, rfl, ?_, ?_⟩
    · have hres : readFileState dbDir false storage filePath =
          (some (setViewStateFile (ensureLockDefaults (.obj fields)).1 filePath),
            objSet storage (getDbFilePath dbDir filePath)
              (.val (setViewStateFile
                (ensureLockDefaults (.obj fields)).1 filePath))) := by
        simp only [readFileState, hstore]
        rw [if_pos (by simp [hval])]
      rw [hres, hpc1, hset]
    · simp only [jsGet]
      exact objGet_objSet_ne _ _ _ _ (by decide)
    · simp only [jsGet]
      exact objGet_objSet_ne _ _ _ _ (by decide)

/-- C1 (amended): when the merge-on-save read actually returns the
persisted record — in particular whenever no transient visual-effect
(is-flashing) signal is active at read time — a fresh capture merged by
`saveTemporaryState` keeps the persisted `protected:true` and numeric
timestamp, whatever lock-field values the capture carries; when no
persisted record exists and an in-memory `lastTemporaryState` is
present, the merged record takes `protected` and `timestamp` from
`lastTemporaryState`.  When the signal is active the persisted record
is not consulted and the fallback applies instead (see the
counterexample). -/
theorem saveTemporaryState_lock_fields :
    (∀ (dbDir p : String) (ctx : SaveCtx) (storage : Storage)
        (fields : List (String × Js)) (state : Js),
      ctx.activeFile = some p → p ≠ "" → ctx.lastLoadedFileName = some p →
      objGet storage (getDbFilePath dbDir p) = some (.val (.obj fields)) →
      objGet fields "protected" = some (.bool true) →
      ∀ T : Rat, objGet fields "timestamp" = some (.num T) →
      ∃ merged storage1,
        saveTemporaryState dbDir false ctx storage state =
          (some (p, merged), storage1) ∧
        jsGet merged "protected" = some (.bool true) ∧
        jsGet merged "timestamp" = some (.num T)) ∧
    (∀ (dbDir p : String) (flashing : Bool) (ctx : SaveCtx) (storage : Storage)
        (last : Js) (stateFields : List (String × Js)),
      ctx.activeFile = some p → p ≠ "" → ctx.lastLoadedFileName = some p →
      objGet storage (getDbFilePath dbDir p) = none →
      ctx.lastTemporaryState = some last →
      ∃ merged,
        saveTemporaryState dbDir flashing ctx storage (.obj stateFields) =
          (some (p, merged), storage) ∧
        jsGet merged "protected" = jsGet last "protected" ∧
        jsGet merged "timestamp" = jsGet last "timestamp") := by
  constructor
  · intro dbDir p ctx storage fields state hactive hp hlast hstore hprot T hts
    have hb : isBoolean (objGet fields "protected") = true := by
      rw [hprot]; rfl
    have ht : isNumOrNull (objGet fields "timestamp") = true := by
      rw [hts]; rfl
    obtain ⟨r, hr, hrtru, hrp, hrt⟩ :=
      readFileState_lock_preserved dbDir p storage fields hstore hb ht
    rw [hprot] at hrp
    rw [hts] at hrt
    refine ⟨.obj (objSet (objSet (objSpread (spreadFields r) (spreadFields state))
      "protected" (.bool true)) "timestamp" (.num T)),
      (readFileState dbDir false storage p).2, ?_, ?_, ?_⟩
    · simp only [saveTemporaryState, hactive]
      rw [if_neg (by simp [hp, hlast])]
      simp only [hr, hrtru, if_true, hrp, hrt]
    · simp only [jsGet]
      rw [objGet_objSet_ne _ _ _ _ (by decide), objGet_objSet_self]
    · simp only [jsGet]
      rw [objGet_objSet_self]
  · intro dbDir p flashing ctx storage last stateFields hactive hp hlast hstore hlastState
    have hread : readFileState dbDir flashing storage p = (none, storage) := by
      simp only [readFileState, hstore]
    refine ⟨.obj (objSetOpt (objSetOpt (spreadFields (.obj stateFields))
      "protected" (jsGet last "protected")) "timestamp"
      (jsGet last "timestamp")), ?_, ?_, ?_⟩
    · simp only [saveTemporaryState, hactive]
      rw [if_neg (by simp [hp, hlast])]
      simp only [hread, hlastState]
    · simp only [jsGet]
      rw [objGet_objSetOpt_ne _ _ _ _ (by decide), objGet_objSetOpt_self]
    · simp only [jsGet]
      rw [objGet_objSetOpt_self]

/-- Counterexample to C1 as stated: the persisted record has
`protected:true, timestamp:1000` and an in-memory snapshot without lock
fields exists; with the transient visual-effect signal active at read
time, the merged record handed to the write carries no `protected`
field at all (so the subsequent write would persist `protected:false`),
contradicting the unconditional claim. -/
theorem saveTemporaryState_lock_fields_counterexample :
    (saveTemporaryState "db" true saveCtx lockStore
        (.obj [("scroll", .num 5)])).1 =
      some ("a.md", .obj [("scroll", .num 5)]) ∧
      jsGet (.obj [("scroll", .num 5)]) "protected" ≠ some (.bool true) :=
  ⟨rfl, by simp [jsGet, objGet]⟩

/-- Closed instance of the amended C1: both the merge branch and the
in-memory fallback branch at concrete inputs. -/
theorem saveTemporaryState_lock_fields_witness :
    (∃ merged storage1,
      saveTemporaryState "db" false saveCtx lockStore
          (.obj [("scroll", .num 5)]) =
        (some ("a.md", merged), storage1) ∧
      jsGet merged "protected" = some (.bool true) ∧
      jsGet merged "timestamp" = some (.num 1000)) ∧
    (∃ merged,
      saveTemporaryState "db" true saveCtx []
          (.obj [("scroll", .num 5)]) =
        (some ("a.md", merged), []) ∧
      jsGet merged "protected" = jsGet (.obj []) "protected" ∧
      jsGet merged "timestamp" = jsGet (.obj []) "timestamp") :=
  ⟨saveTemporaryState_lock_fields.1 "db" "a.md" saveCtx lockStore
      [("protected", .bool true), ("timestamp", .num 1000)]
      (.obj [("scroll", .num 5)]) rfl (by decide) rfl rfl rfl 1000 rfl,
    saveTemporaryState_lock_fields.2 "db" "a.md" true saveCtx [] (.obj [])
      [("scroll", .num 5)] rfl (by decide) rfl rfl rfl⟩

theorem validateLoop_cons (notes : List String) (f : String)
    (rest : List String) (st : Storage) (rep : ValidationReport) :
    validateLoop notes (f :: rest) st rep =
      validateLoop notes rest (stepStore notes st f)
        (entryCount (entryClass notes (objGet st f))
          { rep with total := rep.total + 1 }) := by
  cases hlook : objGet st f with
  | none => simp [validateLoop, hlook, stepStore, entryClass, entryCount]
  | some raw =>
    cases raw with
    | err => simp [validateLoop, hlook, stepStore, entryClass, entryCount]
    | invalid => simp [validateLoop, hlook, stepStore, entryClass, entryCount]
    | val parsed =>
      cases hnp : recoveredNotePath parsed with
      | none =>
        simp [validateLoop, hlook, hnp, stepStore, entryClass, entryCount]
      | some np =>
        by_cases hempty : np = ""
        · simp [validateLoop, hlook, hnp, hempty, stepStore, entryClass,
            entryCount]
        · by_cases hex : np ∈ notes
          · by_cases hch : viewStateFileChanged parsed np
            · simp [validateLoop, hlook, hnp, hempty, hex, hch, stepStore,
                entryClass, entryCount]
            · simp [validateLoop, hlook, hnp, hempty, hex, hch, stepStore,
                entryClass, entryCount]
          · simp [validateLoop, hlook, hnp, hempty, hex, stepStore,
              entryClass, entryCount]

theorem stepStore_get_ne (notes : List String) (st : Storage) (f g : String)
    (h : g ≠ f) : objGet (stepStore notes st f) g = objGet st g := by
  cases hlook : objGet st f with
  | none => simp [stepStore, hlook]
  | some raw =>
    cases raw with
    | err => simp [stepStore, hlook]
    | invalid =>
      simp only [stepStore, hlook]
      exact objGet_objDel_ne st f g (Ne.symm h)
    | val parsed =>
      cases hnp : recoveredNotePath parsed with
      | none =>
        simp only [stepStore, hlook, hnp]
        exact objGet_objDel_ne st f g (Ne.symm h)
      | some np =>
        simp only [stepStore, hlook, hnp]
        by_cases hempty : np = ""
        · rw [if_pos hempty]
          exact objGet_objDel_ne st f g (Ne.symm h)
        · rw [if_neg hempty]
          by_cases hex : np ∈ notes
          · rw [if_neg (by simp [hex])]
            by_cases hch : viewStateFileChanged parsed np
            · rw [if_pos hch]
              exact objGet_objSet_ne st f g _ (Ne.symm h)
            · rw [if_neg hch]
          · rw [if_pos (by simp [hex])]
            exact objGet_objDel_ne st f g (Ne.symm h)

theorem stepStore_get_self (notes : List String) (st : Storage) (f : String) :
    objGet (stepStore notes st f) f = entryResult notes (objGet st f) := by
  cases hlook : objGet st f with
  | none => simp [stepStore, entryResult, hlook]
  | some raw =>
    cases raw with
    | err => simp [stepStore, entryResult, hlook]
    | invalid =>
      simp only [stepStore, entryResult, hlook]
      exact objGet_objDel_self st f
    | val parsed =>
      cases hnp : recoveredNotePath parsed with
      | none =>
        simp only [stepStore, entryResult, hlook, hnp]
        exact objGet_objDel_self st f
      | some np =>
        simp only [stepStore, entryResult, hlook, hnp]
        split_ifs <;>
          first
            | exact objGet_objDel_self st f
            | exact objGet_objSet_self st f _
            | exact hlook

theorem entryCount_total (c : EntryClass) (rep : ValidationReport) :
    (entryCount c rep).total = rep.total := by
  cases c <;> rfl

theorem entryCount_errors (c : EntryClass) (rep : ValidationReport) :
    (entryCount c rep).errors =
      rep.errors + (if c = .errored then 1 else 0) := by
  cases c <;> simp [entryCount]

theorem entryCount_invalid (c : EntryClass) (rep : ValidationReport) :
    (entryCount c rep).removedInvalidEntry =
      rep.removedInvalidEntry + (if c = .removedInvalid then 1 else 0) := by
  cases c <;> simp [entryCount]

theorem entryCount_missing (c : EntryClass) (rep : ValidationReport) :
    (entryCount c rep).removedMissingNote =
      rep.removedMissingNote + (if c = .removedMissing then 1 else 0) := by
  cases c <;> simp [entryCount]

theorem entryCount_fixed (c : EntryClass) (rep : ValidationReport) :
    (entryCount c rep).fixedViewStatePath =
      rep.fixedViewStatePath + (if c = .fixed then 1 else 0) := by
  cases c <;> simp [entryCount]

theorem validateLoop_spec (notes : List String) :
    ∀ (fs : List String) (st : Storage) (rep : ValidationReport), fs.Nodup →
      (validateLoop notes fs st rep).1.total = rep.total + fs.length ∧
      (validateLoop notes fs st rep).1.errors = rep.errors +
        fs.countP (fun f => decide (entryClass notes (objGet st f) = .errored)) ∧
      (validateLoop notes fs st rep).1.removedInvalidEntry =
        rep.removedInvalidEntry + fs.countP
          (fun f => decide (entryClass notes (objGet st f) = .removedInvalid)) ∧
      (validateLoop notes fs st rep).1.removedMissingNote =
        rep.removedMissingNote + fs.countP
          (fun f => decide (entryClass notes (objGet st f) = .removedMissing)) ∧
      (validateLoop notes fs st rep).1.fixedViewStatePath =
        rep.fixedViewStatePath + fs.countP
          (fun f => decide (entryClass notes (objGet st f) = .fixed)) ∧
      (∀ g, g ∉ fs → objGet (validateLoop notes fs st rep).2 g = objGet st g) ∧
      (∀ g ∈ fs, objGet (validateLoop notes fs st rep).2 g =
        entryResult notes (objGet st g)) := by
  intro fs
  induction fs with
  | nil =>
    intro st rep _
    simp [validateLoop]
  | cons f rest ih =>
    intro st rep hnd
    have hf : f ∉ rest := (List.nodup_cons.mp hnd).1
    have hnd2 : rest.Nodup := (List.nodup_cons.mp hnd).2
    rw [validateLoop_cons]
    obtain ⟨iht, ihe, ihi, ihm, ihx, ihout, ihin⟩ :=
      ih (stepStore notes st f)
        (entryCount (entryClass notes (objGet st f))
          { rep with total := rep.total + 1 }) hnd2
    have hstable : ∀ g ∈ rest, objGet (stepStore notes st f) g = objGet st g := by
      intro g hg
      exact stepStore_get_ne notes st f g (fun he => hf (he ▸ hg))
    have hcount : ∀ c : EntryClass,
        rest.countP (fun g =>
          decide (entryClass notes (objGet (stepStore notes st f) g) = c)) =
          rest.countP (fun g => decide (entryClass notes (objGet st g) = c)) := by
      intro c
      apply List.countP_congr
      intro g hg
      rw [hstable g hg]
    refine ⟨?_, ?_, ?_, ?_, ?_, ?_, ?_⟩
    · rw [iht, entryCount_total]
      simp only [List.length_cons]
      omega
    · rw [ihe, entryCount_errors, hcount .errored, List.countP_cons]
      by_cases hc : entryClass notes (objGet st f) = .errored <;>
        (simp [hc]; try omega)
    · rw [ihi, entryCount_invalid, hcount .removedInvalid, List.countP_cons]
      by_cases hc : entryClass notes (objGet st f) = .removedInvalid <;>
        (simp [hc]; try omega)
    · rw [ihm, entryCount_missing, hcount .removedMissing, List.countP_cons]
      by_cases hc : entryClass notes (objGet st f) = .removedMissing <;>
        (simp [hc]; try omega)
    · rw [ihx, entryCount_fixed, hcount .fixed, List.countP_cons]
      by_cases hc : entryClass notes (objGet st f) = .fixed <;>
        (simp [hc]; try omega)
    · intro g hg
      have hg1 : g ≠ f := fun he => hg (he ▸ List.mem_cons_self f rest)
      have hg2 : g ∉ rest := fun hm => hg (List.mem_cons_of_mem f hm)
      rw [ihout g hg2, stepStore_get_ne notes st f g hg1]
    · intro g hg
      rcases List.mem_cons.mp hg with rfl | hg2
      · rw [ihout g hf, stepStore_get_self]
      · rw [ihin g hg2, hstable g hg2]

/-- The note path recovered from a record is by construction exactly
its `viewState.file`, so the change test against it never fires: the
fix-and-count branch of the loop is unreachable. -/
theorem viewStateFileChanged_of_recovered (parsed : Js) (np : String)
    (h : recoveredNotePath parsed = some np) :
    viewStateFileChanged parsed np = false := by
  unfold recoveredNotePath at h
  by_cases hmin : isParsedStateMinimal parsed
  · rw [if_pos hmin] at h
    unfold viewStateFileChanged
    rw [if_pos hmin]
    cases hf : (jsGet parsed "viewState").bind (fun vs => jsGet vs "file") with
    | none => rw [hf] at h; simp at h
    | some v =>
      rw [hf] at h
      cases v with
      | str s =>
        have hs : s = np := by simpa using h
        simp [hs]
      | null => simp at h
      | bool b => simp at h
      | num q => simp at h
      | arr xs => simp at h
      | obj fs => simp at h
  · rw [if_neg hmin] at h
    simp at h

theorem entryClass_ne_fixed (notes : List String) (raw : Option Raw) :
    entryClass notes raw ≠ .fixed := by
  cases raw with
  | none => simp [entryClass]
  | some r =>
    cases r with
    | err => simp [entryClass]
    | invalid => simp [entryClass]
    | val parsed =>
      cases hnp : recoveredNotePath parsed with
      | none => simp [entryClass, hnp]
      | some np =>
        simp only [entryClass, hnp]
        by_cases hempty : np = ""
        · simp [hempty]
        · by_cases hex : np ∈ notes
          · simp [hempty, hex, viewStateFileChanged_of_recovered parsed np hnp]
          · simp [hempty, hex]

/-- C3: over any storage root with uniquely-named entries,
`validateDatabase` classifies each listed .json entry exactly once —
total counts every listed entry, the error counter counts exactly the
entries whose per-entry read throws (without aborting the pass), the
removed-invalid counter counts exactly the unparsable entries and those
without a truthy string `viewState.file`, the removed-missing counter
counts exactly the entries naming a non-existent document, the fixed
counter counts exactly the entries whose `viewState.file` differs from
the recovered owning path, which is always zero since the owning path
is recovered from `viewState.file` itself — each listed entry ends as
its classification dictates (removed, rewritten or kept) and unlisted
keys are untouched; and the four-record scenario yields total 4,
removed-missing 1, removed-invalid 2, errors 0, fixed 0, with only the
valid record left. -/
theorem validateDatabase_spec :
    (∀ (notes : List String) (storage : Storage),
      (storage.map Prod.fst).Nodup →
      (validateDatabase notes storage).1.total =
          ((storage.map Prod.fst).filter hasJsonSuffix).length ∧
        (validateDatabase notes storage).1.errors =
          ((storage.map Prod.fst).filter hasJsonSuffix).countP
            (fun f => decide (entryClass notes (objGet storage f) = .errored)) ∧
        (validateDatabase notes storage).1.removedInvalidEntry =
          ((storage.map Prod.fst).filter hasJsonSuffix).countP
            (fun f => decide (entryClass notes (objGet storage f) = .removedInvalid)) ∧
        (validateDatabase notes storage).1.removedMissingNote =
          ((storage.map Prod.fst).filter hasJsonSuffix).countP
            (fun f => decide (entryClass notes (objGet storage f) = .removedMissing)) ∧
        (validateDatabase notes storage).1.fixedViewStatePath =
          ((storage.map Prod.fst).filter hasJsonSuffix).countP
            (fun f => decide (entryClass notes (objGet storage f) = .fixed)) ∧
        (validateDatabase notes storage).1.fixedViewStatePath = 0 ∧
        (∀ g ∈ (storage.map Prod.fst).filter hasJsonSuffix,
          objGet (validateDatabase notes storage).2 g =
            entryResult notes (objGet storage g)) ∧
        (∀ g, g ∉ (storage.map Prod.fst).filter hasJsonSuffix →
          objGet (validateDatabase notes storage).2 g = objGet storage g)) ∧
      validateDatabase ["a.md"] scenarioStore =
        (⟨4, 0, 1, 2, 0⟩,
          [("db/e1.json", .val (.obj [("viewState", .obj [("file", .str "a.md")]),
            ("scroll", .num 3)]))]) := by
  constructor
  · intro notes storage hnodup
    have hnd : ((storage.map Prod.fst).filter hasJsonSuffix).Nodup :=
      hnodup.filter _
    obtain ⟨ht, he, hi, hm, hx, hout, hin⟩ :=
      validateLoop_spec notes ((storage.map Prod.fst).filter hasJsonSuffix)
        storage ⟨0, 0, 0, 0, 0⟩ hnd
    refine ⟨by simpa using ht, by simpa using he, by simpa using hi,
      by simpa using hm, by simpa using hx, ?_, fun g hg => hin g hg,
      fun g hg => hout g hg⟩
    have hzero : ((storage.map Prod.fst).filter hasJsonSuffix).countP
        (fun f => decide (entryClass notes (objGet storage f) = .fixed)) = 0 := by
      rw [List.countP_eq_zero]
      intro f _
      simp [entryClass_ne_fixed notes (objGet storage f)]
    have hx2 := hx
    rw [hzero] at hx2
    simpa using hx2
  · rfl

/-- Closed instance of C3 beyond the built-in scenario: the general
characterization applied to the scenario store. -/
theorem validateDatabase_spec_witness :
    (validateDatabase ["a.md"] scenarioStore).1.total =
      ((scenarioStore.map Prod.fst).filter hasJsonSuffix).length ∧
      (validateDatabase ["a.md"] scenarioStore).1.fixedViewStatePath = 0 :=
  ⟨(validateDatabase_spec.1 ["a.md"] scenarioStore (by decide)).1,
    (validateDatabase_spec.1 ["a.md"] scenarioStore (by decide)).2.2.2.2.2.1⟩

end AES
